import Mathlib

/-!
Verification of the WiFi indoor-positioning pipeline's core logic:
identifier normalization (`normalize_bssid`), the feature-vector builder
(`build_feature_df`) and the `/predict` request handler, shallowly embedded
from the Python sources (`app.py`, `prediction_api.py`, `preprocess_data.py`,
`convert_long_to_wide_per_scan.py`).

Strings are embedded as lists of Unicode code points (`List Nat`), signal
strengths as rationals (`Rat`), and the Python dict used by the builder as a
key list in insertion order together with a value function.
-/

namespace IPS

/-- Python `str.strip()` whitespace test, restricted to the ASCII whitespace
characters (space, tab, LF, VT, FF, CR); all identifiers handled by the
pipeline are ASCII. -/
def isPyWs (c : Nat) : Bool :=
  c == 32 || c == 9 || c == 10 || c == 11 || c == 12 || c == 13

/-- Python `str.lower()` on one code point (ASCII range). -/
def lowerChar (c : Nat) : Nat :=
  if 65 ≤ c ∧ c ≤ 90 then c + 32 else c

/-- Python `str.replace("-", ":")` on one code point: hyphen (45) becomes
colon (58). -/
def replChar (c : Nat) : Nat :=
  if c = 45 then 58 else c

/-- Python `str.strip()`: drop leading and trailing whitespace. -/
def pyStrip (s : List Nat) : List Nat :=
  ((s.dropWhile isPyWs).reverse.dropWhile isPyWs).reverse

/-- Python `str.lower()` (ASCII range). -/
def pyLower (s : List Nat) : List Nat :=
  s.map lowerChar

/-- Python `str.replace("-", ":")`. -/
def replaceDash (s : List Nat) : List Nat :=
  s.map replChar

/-- Python `str.endswith(":")`. -/
def endsWithColon (s : List Nat) : Bool :=
  s.getLast? == some 58

/-- Appending the trailing colon when absent (step 4 of the normalizer). -/
def ensureColon (s : List Nat) : List Nat :=
  if endsWithColon s then s else s ++ [58]

/-- `normalize_bssid` from `app.py` lines 22-27 / `prediction_api.py`
lines 22-28:
`normalized = str(bssid).strip().lower().replace("-", ":")`, then append a
trailing `":"` if `not normalized.endswith(":")`. -/
def normalize_bssid (bssid : List Nat) : List Nat :=
  let normalized := replaceDash (pyLower (pyStrip bssid))
  if endsWithColon normalized then normalized else normalized ++ [58]

/-- The BSSID normalization of `preprocess_data.py` lines 33-44:
`.str.lower().str.replace('-', ':')` followed by
`apply(lambda x: x if x.endswith(':') else x + ':')` — note: no strip. -/
def preprocessNormalizeBssid (s : List Nat) : List Nat :=
  let t := replaceDash (pyLower s)
  if endsWithColon t then t else t ++ [58]

/-- The BSSID normalization of `convert_long_to_wide_per_scan.py` line 44:
`.astype(str).str.lower().str.replace("-", ":", regex=False).str.strip()`
— note: strip comes last and no trailing colon is appended. -/
def convertNormalizeBssid (s : List Nat) : List Nat :=
  pyStrip (replaceDash (pyLower s))

/-- Code points of a Lean string literal, for readable concrete inputs. -/
def strToCodes (s : String) : List Nat :=
  s.toList.map Char.toNat

-- Basic character-level facts -------------------------------------------

theorem lowerChar_lowerChar (c : Nat) : lowerChar (lowerChar c) = lowerChar c := by
  unfold lowerChar
  repeat' split
  all_goals omega

theorem replChar_replChar (c : Nat) : replChar (replChar c) = replChar c := by
  unfold replChar
  repeat' split
  all_goals omega

theorem lowerChar_replChar (c : Nat) :
    lowerChar (replChar c) = replChar (lowerChar c) := by
  unfold lowerChar replChar
  repeat' split
  all_goals omega

theorem isPyWs_lowerChar (c : Nat) : isPyWs (lowerChar c) = isPyWs c := by
  unfold lowerChar
  split
  · next h =>
    have h1 : isPyWs (c + 32) = false := by simp [isPyWs]; omega
    have h2 : isPyWs c = false := by simp [isPyWs]; omega
    rw [h1, h2]
  · rfl

theorem isPyWs_replChar (c : Nat) : isPyWs (replChar c) = isPyWs c := by
  unfold replChar
  split
  · subst c; rfl
  · rfl

-- Facts about `pyStrip` -------------------------------------------------

theorem dropWhile_eq_self_of_head {p : Nat → Bool} {l : List Nat}
    (h : ∀ c, l.head? = some c → p c = false) : l.dropWhile p = l := by
  cases l with
  | nil => rfl
  | cons a t =>
    rw [List.dropWhile_cons, h a rfl]
    simp

theorem head?_dropWhile {p : Nat → Bool} {l : List Nat} {c : Nat}
    (h : (l.dropWhile p).head? = some c) : p c = false := by
  induction l with
  | nil => simp [List.dropWhile] at h
  | cons a t ih =>
    rw [List.dropWhile_cons] at h
    by_cases hp : p a = true
    · rw [if_pos hp] at h; exact ih h
    · rw [if_neg hp] at h
      simp at h
      rw [← h]
      exact Bool.not_eq_true _ ▸ hp

theorem pyStrip_eq_self {l : List Nat}
    (h1 : ∀ c, l.head? = some c → isPyWs c = false)
    (h2 : ∀ c, l.getLast? = some c → isPyWs c = false) : pyStrip l = l := by
  unfold pyStrip
  rw [dropWhile_eq_self_of_head h1]
  rw [dropWhile_eq_self_of_head (by simpa using h2), List.reverse_reverse]

theorem head?_pyStrip {l : List Nat} {c : Nat}
    (h : (pyStrip l).head? = some c) : isPyWs c = false := by
  unfold pyStrip at h
  rw [List.head?_reverse] at h
  obtain ⟨t, ht⟩ := List.dropWhile_suffix
    (l := (l.dropWhile isPyWs).reverse) (p := isPyWs)
  have hu : ((l.dropWhile isPyWs).reverse).getLast? = some c := by
    rw [← ht, List.getLast?_append, h]; rfl
  rw [List.getLast?_reverse] at hu
  exact head?_dropWhile hu

theorem getLast?_pyStrip {l : List Nat} {c : Nat}
    (h : (pyStrip l).getLast? = some c) : isPyWs c = false := by
  unfold pyStrip at h
  rw [List.getLast?_reverse] at h
  exact head?_dropWhile h

theorem pyStrip_pyStrip (l : List Nat) : pyStrip (pyStrip l) = pyStrip l :=
  pyStrip_eq_self (fun _ h => head?_pyStrip h) (fun _ h => getLast?_pyStrip h)

theorem pyStrip_map {f : Nat → Nat} (hf : ∀ c, isPyWs (f c) = isPyWs c)
    (l : List Nat) : pyStrip (l.map f) = (pyStrip l).map f := by
  have hp : (fun c => isPyWs (f c)) = isPyWs := funext hf
  unfold pyStrip
  rw [List.dropWhile_map]
  show ((((l.dropWhile (fun c => isPyWs (f c)))).map f).reverse.dropWhile
      isPyWs).reverse = _
  rw [hp, ← List.map_reverse, List.dropWhile_map]
  show ((((l.dropWhile isPyWs).reverse.dropWhile (fun c => isPyWs (f c)))).map
      f).reverse = _
  rw [hp, ← List.map_reverse]

-- Facts about the normalization stages ----------------------------------

theorem pyLower_pyLower (l : List Nat) : pyLower (pyLower l) = pyLower l := by
  unfold pyLower
  rw [List.map_map]
  exact List.map_congr_left (fun a _ => lowerChar_lowerChar a)

theorem replaceDash_replaceDash (l : List Nat) :
    replaceDash (replaceDash l) = replaceDash l := by
  unfold replaceDash
  rw [List.map_map]
  exact List.map_congr_left (fun a _ => replChar_replChar a)

theorem pyLower_replaceDash (l : List Nat) :
    pyLower (replaceDash l) = replaceDash (pyLower l) := by
  unfold pyLower replaceDash
  rw [List.map_map, List.map_map]
  exact List.map_congr_left (fun a _ => lowerChar_replChar a)

theorem pyStrip_pyLower (l : List Nat) :
    pyStrip (pyLower l) = pyLower (pyStrip l) :=
  pyStrip_map isPyWs_lowerChar l

theorem pyStrip_replaceDash (l : List Nat) :
    pyStrip (replaceDash l) = replaceDash (pyStrip l) :=
  pyStrip_map isPyWs_replChar l

theorem head?_core_not_ws {x : List Nat} {c : Nat}
    (h : (replaceDash (pyLower (pyStrip x))).head? = some c) :
    isPyWs c = false := by
  unfold replaceDash pyLower at h
  rw [List.head?_map, List.head?_map] at h
  cases h0 : (pyStrip x).head? with
  | none => rw [h0] at h; simp at h
  | some d =>
    rw [h0] at h
    simp at h
    rw [← h, isPyWs_replChar, isPyWs_lowerChar]
    exact head?_pyStrip h0

/-- The normalizer is literally the four-stage pipeline
trim → lowercase → hyphen-to-colon → ensure trailing colon. -/
theorem normalize_bssid_eq_stages (s : List Nat) :
    normalize_bssid s = ensureColon (replaceDash (pyLower (pyStrip s))) := rfl

theorem pyStrip_core (x : List Nat) :
    pyStrip (replaceDash (pyLower (pyStrip x)))
      = replaceDash (pyLower (pyStrip x)) := by
  rw [pyStrip_replaceDash, pyStrip_pyLower, pyStrip_pyStrip]

theorem pyLower_core (x : List Nat) :
    pyLower (replaceDash (pyLower (pyStrip x)))
      = replaceDash (pyLower (pyStrip x)) := by
  rw [pyLower_replaceDash, pyLower_pyLower]

theorem replaceDash_core (x : List Nat) :
    replaceDash (replaceDash (pyLower (pyStrip x)))
      = replaceDash (pyLower (pyStrip x)) :=
  replaceDash_replaceDash _

theorem pyStrip_core_concat (x : List Nat) :
    pyStrip (replaceDash (pyLower (pyStrip x)) ++ [58])
      = replaceDash (pyLower (pyStrip x)) ++ [58] := by
  apply pyStrip_eq_self
  · intro c hc
    rw [List.head?_append] at hc
    cases h0 : (replaceDash (pyLower (pyStrip x))).head? with
    | none => rw [h0] at hc; simp at hc; rw [← hc]; rfl
    | some d =>
      rw [h0] at hc
      simp at hc
      rw [← hc]
      exact head?_core_not_ws h0
  · intro c hc
    rw [List.getLast?_concat] at hc
    simp at hc
    rw [← hc]
    rfl

theorem normalize_bssid_def (s : List Nat) :
    normalize_bssid s = if endsWithColon (replaceDash (pyLower (pyStrip s)))
      then replaceDash (pyLower (pyStrip s))
      else replaceDash (pyLower (pyStrip s)) ++ [58] := rfl

theorem pyLower_append (l1 l2 : List Nat) :
    pyLower (l1 ++ l2) = pyLower l1 ++ pyLower l2 :=
  List.map_append _ _ _

theorem replaceDash_append (l1 l2 : List Nat) :
    replaceDash (l1 ++ l2) = replaceDash l1 ++ replaceDash l2 :=
  List.map_append _ _ _

theorem pyLower_colon : pyLower [58] = [58] := by decide

theorem replaceDash_colon : replaceDash [58] = [58] := by decide

theorem pyLower_core_concat (x : List Nat) :
    pyLower (replaceDash (pyLower (pyStrip x)) ++ [58])
      = replaceDash (pyLower (pyStrip x)) ++ [58] := by
  rw [pyLower_append, pyLower_core, pyLower_colon]

theorem replaceDash_core_concat (x : List Nat) :
    replaceDash (replaceDash (pyLower (pyStrip x)) ++ [58])
      = replaceDash (pyLower (pyStrip x)) ++ [58] := by
  rw [replaceDash_append, replaceDash_core, replaceDash_colon]

theorem endsWithColon_concat (l : List Nat) :
    endsWithColon (l ++ [58]) = true := by
  unfold endsWithColon
  rw [List.getLast?_concat]
  rfl

-- ======================================================================
-- Claims
-- ======================================================================

/-- C1: for every input string `raw`, `normalize_bssid raw` equals the result
of applying, in order: trimming whitespace, lowercasing, replacing every
hyphen with a colon, and appending a trailing colon when absent; moreover
`"AA-BB-CC"`, `"aa:bb:cc"` and `"aa:bb:cc:"` all normalize to `"aa:bb:cc:"`.
Totality holds by construction: `normalize_bssid` is a total Lean function. -/
theorem C1_normalize_bssid_pipeline :
    (∀ raw : List Nat,
      normalize_bssid raw = ensureColon (replaceDash (pyLower (pyStrip raw)))) ∧
    normalize_bssid (strToCodes "AA-BB-CC") = strToCodes "aa:bb:cc:" ∧
    normalize_bssid (strToCodes "aa:bb:cc") = strToCodes "aa:bb:cc:" ∧
    normalize_bssid (strToCodes "aa:bb:cc:") = strToCodes "aa:bb:cc:" :=
  ⟨fun _ => rfl, by decide, by decide, by decide⟩

/-- C8: the identifier normalizer is idempotent:
`normalize_bssid (normalize_bssid x) = normalize_bssid x` for every input. -/
theorem C8_normalize_bssid_idempotent (x : List Nat) :
    normalize_bssid (normalize_bssid x) = normalize_bssid x := by
  by_cases h : endsWithColon (replaceDash (pyLower (pyStrip x))) = true
  · rw [normalize_bssid_def x, if_pos h, normalize_bssid_def, pyStrip_core,
      pyLower_core, replaceDash_core, if_pos h]
  · rw [normalize_bssid_def x, if_neg h, normalize_bssid_def,
      pyStrip_core_concat, pyLower_core_concat, replaceDash_core_concat,
      if_pos (endsWithColon_concat _)]

/-- C2 counterexample: on the plain identifier `"aa:bb:cc"` the
normalization of `convert_long_to_wide_per_scan.py` (which never appends a
trailing colon) disagrees with `prediction_api.normalize_bssid`. -/
theorem C2_convert_disagrees_counterexample :
    convertNormalizeBssid (strToCodes "aa:bb:cc")
      ≠ normalize_bssid (strToCodes "aa:bb:cc") := by decide

/-- C2 (amended): `preprocess_data.py`'s normalization (which does not trim
whitespace) agrees with `prediction_api.normalize_bssid` on every string
that carries no leading/trailing whitespace, and
`convert_long_to_wide_per_scan.py`'s normalization agrees with
`prediction_api.normalize_bssid` only up to the trailing colon: appending
the trailing colon to its result recovers `normalize_bssid` on every
string. -/
theorem C2_normalizers_agreement_amended (s : List Nat) :
    (pyStrip s = s → preprocessNormalizeBssid s = normalize_bssid s) ∧
    ensureColon (convertNormalizeBssid s) = normalize_bssid s := by
  constructor
  · intro hs
    show ensureColon (replaceDash (pyLower s)) = _
    rw [normalize_bssid_eq_stages, hs]
  · show ensureColon (pyStrip (replaceDash (pyLower s))) = _
    rw [pyStrip_replaceDash, pyStrip_pyLower, normalize_bssid_eq_stages]

/-- Witness for C2's amended theorem at the concrete input `"AA-BB-CC"`. -/
theorem C2_normalizers_agreement_amended_witness :
    preprocessNormalizeBssid (strToCodes "AA-BB-CC")
        = normalize_bssid (strToCodes "AA-BB-CC") ∧
    ensureColon (convertNormalizeBssid (strToCodes "AA-BB-CC"))
        = normalize_bssid (strToCodes "AA-BB-CC") :=
  ⟨(C2_normalizers_agreement_amended (strToCodes "AA-BB-CC")).1 (by decide),
   (C2_normalizers_agreement_amended (strToCodes "AA-BB-CC")).2⟩

-- ======================================================================
-- The feature-vector builder (`build_feature_df`, app.py lines 113-139 /
-- prediction_api.py lines 50-87)
-- ======================================================================

/-- `MISSING_RSSI = -110` (app.py line 18 / prediction_api.py line 15). -/
def MISSING_RSSI : Rat := -110

/-- One element of the `scan_items` list handed to `build_feature_df`: a
dict with a `"bssid"` string and a `"rssi"` value. `rssi` is `some r` when
`float(it.get("rssi"))` succeeds and returns `r`, and `none` when that
parse raises. -/
structure ScanItem where
  bssid : List Nat
  rssi : Option Rat
deriving DecidableEq

/-- Keys of a Python dict populated by `for bssid in feature_list:
data[bssid] = MISSING_RSSI`: insertion order, first occurrence wins. -/
def insertKeys (l : List (List Nat)) : List (List Nat) :=
  l.foldl (fun acc k => if k ∈ acc then acc else acc ++ [k]) []

/-- One iteration of the `for it in scan_items` loop of `build_feature_df`
(app.py lines 121-130): normalize the bssid, try to parse the rssi
(`continue` on failure), and when the key is in the dict overwrite its
value and increment `matched_count`. The dict's value table is the
function component, its key set never changes. -/
def buildStep (keys : List (List Nat)) (st : (List Nat → Rat) × Nat)
    (it : ScanItem) : (List Nat → Rat) × Nat :=
  let b := normalize_bssid it.bssid
  match it.rssi with
  | none => st
  | some r =>
    if b ∈ keys then (Function.update st.1 b r, st.2 + 1) else st

/-- `build_feature_df` (app.py lines 113-139): initialize every
`feature_list` key to `MISSING_RSSI`, run the scan loop, and return
`list(data.values())` (the dict's values in key-insertion order) together
with `matched_count`. -/
def build_feature_df (feature_list : List (List Nat))
    (scan_items : List ScanItem) : List Rat × Nat :=
  let keys := insertKeys feature_list
  let fin := scan_items.foldl (buildStep keys) ((fun _ => MISSING_RSSI), 0)
  (keys.map fin.1, fin.2)

/-- An observation that writes to dict key `k`: its rssi parses and its
normalized bssid is `k`. -/
def matchesKey (k : List Nat) (it : ScanItem) : Bool :=
  it.rssi.isSome && decide (normalize_bssid it.bssid = k)

/-- Specification-level value of the vector at key `k`: the rssi of the
last observation writing to `k`, or the `-110` sentinel. -/
def lastWriteVal (k : List Nat) (obs : List ScanItem) : Rat :=
  (obs.filter (matchesKey k)).foldl (fun acc it => it.rssi.getD acc)
    MISSING_RSSI

-- `insertKeys` facts ----------------------------------------------------

theorem foldl_ins_mem (l : List (List Nat)) (acc : List (List Nat))
    (k : List Nat) :
    k ∈ l.foldl (fun acc k => if k ∈ acc then acc else acc ++ [k]) acc
      ↔ k ∈ acc ∨ k ∈ l := by
  induction l generalizing acc with
  | nil => simp
  | cons a t ih =>
    simp only [List.foldl_cons]
    by_cases h : a ∈ acc
    · rw [if_pos h, ih]
      constructor
      · rintro (hk | hk)
        · exact Or.inl hk
        · exact Or.inr (List.mem_cons_of_mem _ hk)
      · rintro (hk | hk)
        · exact Or.inl hk
        · rcases List.mem_cons.mp hk with h1 | h2
          · exact Or.inl (h1 ▸ h)
          · exact Or.inr h2
    · rw [if_neg h, ih]
      constructor
      · rintro (hk | hk)
        · rcases List.mem_append.mp hk with h1 | h2
          · exact Or.inl h1
          · exact Or.inr (List.mem_cons.mpr
              (Or.inl (List.mem_singleton.mp h2)))
        · exact Or.inr (List.mem_cons_of_mem _ hk)
      · rintro (hk | hk)
        · exact Or.inl (List.mem_append.mpr (Or.inl hk))
        · rcases List.mem_cons.mp hk with h1 | h2
          · exact Or.inl (List.mem_append.mpr
              (Or.inr (List.mem_singleton.mpr h1)))
          · exact Or.inr h2

theorem insertKeys_mem (l : List (List Nat)) (k : List Nat) :
    k ∈ insertKeys l ↔ k ∈ l := by
  unfold insertKeys
  rw [foldl_ins_mem]
  simp

theorem foldl_ins_of_nodup (l : List (List Nat)) (acc : List (List Nat))
    (hl : l.Nodup) (hd : ∀ x ∈ l, x ∉ acc) :
    l.foldl (fun acc k => if k ∈ acc then acc else acc ++ [k]) acc
      = acc ++ l := by
  induction l generalizing acc with
  | nil => simp
  | cons a t ih =>
    simp only [List.foldl_cons]
    rw [if_neg (hd a (List.mem_cons_self a t))]
    rw [ih (acc ++ [a]) (List.Nodup.of_cons hl) ?_]
    · simp
    · intro x hx hmem
      rcases List.mem_append.mp hmem with h1 | h2
      · exact hd x (List.mem_cons_of_mem _ hx) h1
      · have : x = a := List.mem_singleton.mp h2
        exact (List.nodup_cons.mp hl).1 (this ▸ hx)

theorem insertKeys_of_nodup (l : List (List Nat)) (h : l.Nodup) :
    insertKeys l = l := by
  unfold insertKeys
  rw [foldl_ins_of_nodup l [] h (by simp)]
  simp

-- Characterization of the scan loop -------------------------------------

theorem buildStep_snd (keys : List (List Nat)) (obs : List ScanItem)
    (f : List Nat → Rat) (n : Nat) :
    (obs.foldl (buildStep keys) (f, n)).2
      = n + obs.countP (fun it => it.rssi.isSome
          && decide (normalize_bssid it.bssid ∈ keys)) := by
  induction obs generalizing f n with
  | nil => simp
  | cons it rest ih =>
    simp only [List.foldl_cons, List.countP_cons]
    cases h : it.rssi with
    | none =>
      have hstep : buildStep keys (f, n) it = (f, n) := by
        simp [buildStep, h]
      rw [hstep, ih]
      simp
    | some r =>
      by_cases hb : normalize_bssid it.bssid ∈ keys
      · have hstep : buildStep keys (f, n) it
            = (Function.update f (normalize_bssid it.bssid) r, n + 1) := by
          simp [buildStep, h, hb]
        rw [hstep, ih]
        simp [hb]
        omega
      · have hstep : buildStep keys (f, n) it = (f, n) := by
          simp [buildStep, h, hb]
        rw [hstep, ih]
        simp [hb]

theorem buildStep_fst (keys : List (List Nat)) (obs : List ScanItem)
    (f : List Nat → Rat) (n : Nat) (k : List Nat) (hk : k ∈ keys) :
    (obs.foldl (buildStep keys) (f, n)).1 k
      = (obs.filter (matchesKey k)).foldl
          (fun acc it => it.rssi.getD acc) (f k) := by
  induction obs generalizing f n with
  | nil => rfl
  | cons it rest ih =>
    simp only [List.foldl_cons, List.filter_cons]
    cases h : it.rssi with
    | none =>
      have hstep : buildStep keys (f, n) it = (f, n) := by
        simp [buildStep, h]
      have hm : matchesKey k it = false := by
        simp [matchesKey, h]
      rw [hstep, hm, ih]
      simp
    | some r =>
      by_cases hb : normalize_bssid it.bssid = k
      · have hstep : buildStep keys (f, n) it
            = (Function.update f k r, n + 1) := by
          simp [buildStep, h, hb, hk]
        have hm : matchesKey k it = true := by
          simp [matchesKey, h, hb]
        rw [hstep, hm, ih]
        simp [h]
      · have hm : matchesKey k it = false := by
          simp [matchesKey, h, hb]
        have hfst : (buildStep keys (f, n) it).1 k = f k := by
          by_cases hmem : normalize_bssid it.bssid ∈ keys
          · have hstep : buildStep keys (f, n) it
                = (Function.update f (normalize_bssid it.bssid) r, n + 1) := by
              simp [buildStep, h, hmem]
            rw [hstep]
            exact Function.update_noteq (fun hkb => hb hkb.symm) _ _
          · have hstep : buildStep keys (f, n) it = (f, n) := by
              simp [buildStep, h, hmem]
            rw [hstep]
        rw [hm]
        simp only [Bool.false_eq_true, if_false]
        have hrec := ih (buildStep keys (f, n) it).1
          (buildStep keys (f, n) it).2
        rw [hfst] at hrec
        exact hrec

/-- `build_feature_df` in closed form: the vector lists, in dict key order,
the last write to each key (sentinel `-110` if none), and `matched_count`
counts the observations whose rssi parses and whose normalized bssid is a
known key. -/
theorem build_feature_df_spec (fl : List (List Nat)) (obs : List ScanItem) :
    build_feature_df fl obs
      = ((insertKeys fl).map (fun k => lastWriteVal k obs),
         obs.countP (fun it => it.rssi.isSome
            && decide (normalize_bssid it.bssid ∈ insertKeys fl))) := by
  show ((insertKeys fl).map
      (obs.foldl (buildStep (insertKeys fl)) ((fun _ => MISSING_RSSI), 0)).1,
      (obs.foldl (buildStep (insertKeys fl))
        ((fun _ => MISSING_RSSI), 0)).2) = _
  rw [Prod.mk.injEq]
  constructor
  · apply List.map_congr_left
    intro k hk
    exact buildStep_fst (insertKeys fl) obs _ 0 k hk
  · rw [buildStep_snd]
    simp

theorem getD_map_spec (l : List (List Nat)) (g : List Nat → Rat) (i : Nat)
    (hi : i < l.length) : (l.map g).getD i 0 = g (l.getD i []) := by
  rw [List.getD_eq_getElem?_getD, List.getElem?_map,
    List.getElem?_eq_getElem hi, List.getD_eq_getElem?_getD,
    List.getElem?_eq_getElem hi]
  rfl

theorem lastWriteVal_eq_sentinel {k : List Nat} {obs : List ScanItem}
    (h : ∀ it ∈ obs, matchesKey k it = false) :
    lastWriteVal k obs = MISSING_RSSI := by
  unfold lastWriteVal
  rw [List.filter_eq_nil_iff.mpr (fun a ha => by simp [h a ha])]
  rfl

/-- C3: for every duplicate-free schema and every observation list the
vector has exactly one entry per schema position, positions matched by no
observation hold the sentinel `-110`, and concretely
`build(["a:", "b:"], []) = ([-110, -110], 0)`. -/
theorem C3_vector_length_and_sentinel (schema : List (List Nat))
    (obs : List ScanItem) (hnd : schema.Nodup) :
    ((build_feature_df schema obs).1.length = schema.length ∧
     ∀ i, i < schema.length →
       (∀ it ∈ obs, ¬(it.rssi.isSome = true ∧
           normalize_bssid it.bssid = schema.getD i [])) →
       (build_feature_df schema obs).1.getD i 0 = -110) ∧
    build_feature_df [strToCodes "a:", strToCodes "b:"] []
      = ([-110, -110], 0) := by
  refine ⟨⟨?_, ?_⟩, by decide⟩
  · rw [build_feature_df_spec, insertKeys_of_nodup _ hnd]
    exact List.length_map _ _
  · intro i hi hnomatch
    rw [build_feature_df_spec, insertKeys_of_nodup _ hnd]
    show (schema.map (fun k => lastWriteVal k obs)).getD i 0 = -110
    rw [getD_map_spec _ _ _ hi]
    exact lastWriteVal_eq_sentinel (fun it hit => by
      have hni := hnomatch it hit
      rw [not_and] at hni
      unfold matchesKey
      cases hs : it.rssi.isSome with
      | false => rfl
      | true =>
        rw [Bool.true_and]
        exact decide_eq_false (hni hs))

/-- Witness for C3 at schema `["a:", "b:"]` and one unmatched
observation. -/
theorem C3_vector_length_and_sentinel_witness :
    (build_feature_df [[97, 58], [98, 58]]
        [⟨[99, 99], some (-40)⟩]).1.length = 2 ∧
    (build_feature_df [[97, 58], [98, 58]]
        [⟨[99, 99], some (-40)⟩]).1.getD 0 0 = -110 :=
  ⟨(C3_vector_length_and_sentinel [[97, 58], [98, 58]]
      [⟨[99, 99], some (-40)⟩] (by decide)).1.1,
   (C3_vector_length_and_sentinel [[97, 58], [98, 58]]
      [⟨[99, 99], some (-40)⟩] (by decide)).1.2 0 (by decide) (by decide)⟩

/-- C4: when the last observation writing to a schema key `k` carries
strength `r`, the vector entry at `k`'s position is `r` (last write wins);
`matched_count` counts every matching observation; and concretely
`build(["aa:bb:cc:"], [(aa:bb:cc:, -30), (AA-BB-CC, -80)]) = ([-80], 2)`. -/
theorem C4_last_write_wins :
    (∀ (schema : List (List Nat)) (l1 l2 : List ScanItem) (it : ScanItem)
       (r : Rat) (k : List Nat),
       it.rssi = some r → normalize_bssid it.bssid = k →
       (∀ it2 ∈ l2, ¬(it2.rssi.isSome = true ∧
           normalize_bssid it2.bssid = k)) →
       ∀ j, j < (insertKeys schema).length →
         (insertKeys schema).getD j [] = k →
         (build_feature_df schema (l1 ++ it :: l2)).1.getD j 0 = r) ∧
    (∀ (schema : List (List Nat)) (obs : List ScanItem),
       (build_feature_df schema obs).2
         = obs.countP (fun it => it.rssi.isSome
             && decide (normalize_bssid it.bssid ∈ schema))) ∧
    build_feature_df [strToCodes "aa:bb:cc:"]
      [⟨strToCodes "aa:bb:cc:", some (-30)⟩,
       ⟨strToCodes "AA-BB-CC", some (-80)⟩]
      = ([-80], 2) := by
  refine ⟨?_, ?_, by decide⟩
  · intro schema l1 l2 it r k hr hnorm hlast j hj hjk
    rw [build_feature_df_spec]
    show ((insertKeys schema).map (fun k => lastWriteVal k (l1 ++ it :: l2))).getD j 0 = r
    rw [getD_map_spec _ _ _ hj, hjk]
    unfold lastWriteVal
    have hit : matchesKey k it = true := by
      simp [matchesKey, hr, hnorm]
    have hl2 : l2.filter (matchesKey k) = [] :=
      List.filter_eq_nil_iff.mpr (fun a ha => by
        have hni := hlast a ha
        rw [not_and] at hni
        unfold matchesKey
        cases hs : a.rssi.isSome with
        | false => simp
        | true =>
          rw [Bool.true_and]
          simp [decide_eq_false (hni hs)])
    rw [List.filter_append, List.filter_cons, hit]
    simp only [if_true, List.foldl_append, List.foldl_cons, hl2]
    rw [hr]
    rfl
  · intro schema obs
    rw [build_feature_df_spec]
    exact List.countP_congr (fun it _ => by simp [insertKeys_mem])

/-- Witness for C4's last-write part: schema `["a:"]`, observations
`[(a:, -30), (a:, -80)]`, last write `-80` lands at position 0. -/
theorem C4_last_write_wins_witness :
    (build_feature_df [[97, 58]]
      ([⟨[97, 58], some (-30)⟩] ++ ⟨[97, 58], some (-80)⟩ :: [])).1.getD 0 0
      = -80 :=
  C4_last_write_wins.1 [[97, 58]] [⟨[97, 58], some (-30)⟩] []
    ⟨[97, 58], some (-80)⟩ (-80) [97, 58] rfl (by decide) (by decide)
    0 (by decide) (by decide)

-- Permutation invariance helpers ---------------------------------------

theorem length_le_one_of_nodup_const {α : Type} (l : List α) (a : α)
    (hnd : l.Nodup) (h : ∀ x ∈ l, x = a) : l.length ≤ 1 := by
  match l with
  | [] => simp
  | [x] => simp
  | x :: y :: t =>
    exfalso
    have hx := h x (List.mem_cons_self _ _)
    have hy := h y (List.mem_cons_of_mem _ (List.mem_cons_self _ _))
    exact (List.nodup_cons.mp hnd).1
      (by rw [hx, ← hy]; exact List.mem_cons_self y t)

theorem filter_matches_length_le {k : List Nat} {obs : List ScanItem}
    (hdist : (obs.map (fun it => normalize_bssid it.bssid)).Nodup) :
    (obs.filter (matchesKey k)).length ≤ 1 := by
  have hsubnodup : ((obs.filter (matchesKey k)).map
      (fun it => normalize_bssid it.bssid)).Nodup :=
    List.Nodup.sublist ((List.filter_sublist obs).map _) hdist
  have hall : ∀ x ∈ (obs.filter (matchesKey k)).map
      (fun it => normalize_bssid it.bssid), x = k := by
    intro x hx
    rcases List.mem_map.mp hx with ⟨it, hit, rfl⟩
    have hm := (List.mem_filter.mp hit).2
    simp only [matchesKey, Bool.and_eq_true, decide_eq_true_eq] at hm
    exact hm.2
  have hlen := length_le_one_of_nodup_const _ k hsubnodup hall
  rw [List.length_map] at hlen
  exact hlen

theorem filter_matches_eq_of_perm {k : List Nat} {o1 o2 : List ScanItem}
    (hperm : o1.Perm o2)
    (hdist : (o1.map (fun it => normalize_bssid it.bssid)).Nodup) :
    o1.filter (matchesKey k) = o2.filter (matchesKey k) := by
  have hfp := hperm.filter (matchesKey k)
  have hlen := filter_matches_length_le (k := k) hdist
  cases hne : o1.filter (matchesKey k) with
  | nil =>
    rw [hne] at hfp
    exact (hfp.symm.eq_nil).symm
  | cons a t =>
    rw [hne] at hfp hlen
    have ht : t = [] := by
      cases t with
      | nil => rfl
      | cons b u => simp at hlen
    subst ht
    exact List.singleton_perm.mp hfp

/-- C5: the vector is emitted in schema order — position `i` always holds
the last write to schema entry `i` — and for observation lists that are
permutations of each other with pairwise-distinct normalized identifiers,
`build_feature_df` returns identical vectors and matched counts. -/
theorem C5_schema_order_and_permutation (schema : List (List Nat))
    (hnd : schema.Nodup) :
    (∀ (obs : List ScanItem) (i : Nat), i < schema.length →
       (build_feature_df schema obs).1.getD i 0
         = lastWriteVal (schema.getD i []) obs) ∧
    (∀ o1 o2 : List ScanItem, o1.Perm o2 →
       (o1.map (fun it => normalize_bssid it.bssid)).Nodup →
       build_feature_df schema o1 = build_feature_df schema o2) := by
  constructor
  · intro obs i hi
    rw [build_feature_df_spec, insertKeys_of_nodup _ hnd]
    exact getD_map_spec _ _ _ hi
  · intro o1 o2 hperm hdist
    rw [build_feature_df_spec, build_feature_df_spec, Prod.mk.injEq]
    constructor
    · exact List.map_congr_left (fun k _ => by
        unfold lastWriteVal
        rw [filter_matches_eq_of_perm hperm hdist])
    · exact hperm.countP_eq _

/-- Witness for C5: schema `["a:"]`, two observations with distinct
normalized identifiers given in either order produce the same result. -/
theorem C5_schema_order_and_permutation_witness :
    (build_feature_df [[97, 58]] [⟨[97, 58], some (-40)⟩]).1.getD 0 0
        = lastWriteVal [97, 58] [⟨[97, 58], some (-40)⟩] ∧
    build_feature_df [[97, 58]]
        [⟨[97, 58], some (-40)⟩, ⟨[98, 58], some (-50)⟩]
      = build_feature_df [[97, 58]]
        [⟨[98, 58], some (-50)⟩, ⟨[97, 58], some (-40)⟩] :=
  ⟨(C5_schema_order_and_permutation [[97, 58]] (by decide)).1
      [⟨[97, 58], some (-40)⟩] 0 (by decide),
   (C5_schema_order_and_permutation [[97, 58]] (by decide)).2
      [⟨[97, 58], some (-40)⟩, ⟨[98, 58], some (-50)⟩]
      [⟨[98, 58], some (-50)⟩, ⟨[97, 58], some (-40)⟩]
      (List.Perm.swap _ _ _) (by decide)⟩

/-- C6: an observation whose strength does not parse is silently skipped:
building with it present equals building with it removed (so it changes
neither the vector nor `matched_count`, and nothing is raised — the
builder is a total function). -/
theorem C6_unparsable_observation_skipped (schema : List (List Nat))
    (l1 l2 : List ScanItem) (it : ScanItem) (h : it.rssi = none) :
    build_feature_df schema (l1 ++ it :: l2)
      = build_feature_df schema (l1 ++ l2) := by
  rw [build_feature_df_spec, build_feature_df_spec, Prod.mk.injEq]
  constructor
  · apply List.map_congr_left
    intro k _
    unfold lastWriteVal
    have hm : matchesKey k it = false := by simp [matchesKey, h]
    rw [List.filter_append, List.filter_cons, hm, List.filter_append]
    simp
  · rw [List.countP_append, List.countP_cons, List.countP_append, h]
    simp

/-- Witness for C6 at a concrete unparsable observation. -/
theorem C6_unparsable_observation_skipped_witness :
    build_feature_df [[97, 58]] ([] ++ ⟨[97, 58], none⟩ :: [])
      = build_feature_df [[97, 58]] ([] ++ []) :=
  C6_unparsable_observation_skipped [[97, 58]] [] [] ⟨[97, 58], none⟩ rfl

-- C10 -------------------------------------------------------------------

theorem filter_matches_eq_nil {k : List Nat} {l : List ScanItem}
    (h : ∀ it ∈ l, ¬(it.rssi.isSome = true ∧
        normalize_bssid it.bssid = k)) :
    l.filter (matchesKey k) = [] :=
  List.filter_eq_nil_iff.mpr (fun a ha => by
    have hni := h a ha
    rw [not_and] at hni
    unfold matchesKey
    cases hs : a.rssi.isSome with
    | false => simp
    | true =>
      rw [Bool.true_and]
      simp [decide_eq_false (hni hs)])

/-- C10 counterexample: schema `["a:"]`, observations
`[(a:, -50), (a:, -110)]`. The observation read at exactly `-110` does NOT
leave the vector identical to the build without it: with it the vector is
`[-110]`, without it `[-50]`. -/
theorem C10_sentinel_observation_counterexample :
    (build_feature_df [[97, 58]]
        [⟨[97, 58], some (-50)⟩, ⟨[97, 58], some (-110)⟩]).1
      ≠ (build_feature_df [[97, 58]] [⟨[97, 58], some (-50)⟩]).1 := by
  decide

/-- C10 (amended): an observation whose identifier is in the schema and
whose strength parses to exactly `-110` yields, PROVIDED no other
observation in the list has a parsable strength and the same normalized
identifier, a vector identical to the build without that observation,
while `matched_count` differs by one. -/
theorem C10_sentinel_observation_amended (schema : List (List Nat))
    (l1 l2 : List ScanItem) (it : ScanItem)
    (hr : it.rssi = some (-110))
    (hmem : normalize_bssid it.bssid ∈ schema)
    (honly : ∀ it2 ∈ l1 ++ l2, ¬(it2.rssi.isSome = true ∧
        normalize_bssid it2.bssid = normalize_bssid it.bssid)) :
    (build_feature_df schema (l1 ++ it :: l2)).1
        = (build_feature_df schema (l1 ++ l2)).1 ∧
    (build_feature_df schema (l1 ++ it :: l2)).2
        = (build_feature_df schema (l1 ++ l2)).2 + 1 := by
  have honly1 : ∀ it2 ∈ l1, ¬(it2.rssi.isSome = true ∧
      normalize_bssid it2.bssid = normalize_bssid it.bssid) :=
    fun it2 h2 => honly it2 (List.mem_append.mpr (Or.inl h2))
  have honly2 : ∀ it2 ∈ l2, ¬(it2.rssi.isSome = true ∧
      normalize_bssid it2.bssid = normalize_bssid it.bssid) :=
    fun it2 h2 => honly it2 (List.mem_append.mpr (Or.inr h2))
  constructor
  · rw [build_feature_df_spec, build_feature_df_spec]
    apply List.map_congr_left
    intro k _
    unfold lastWriteVal
    by_cases hk : normalize_bssid it.bssid = k
    · have hit : matchesKey k it = true := by simp [matchesKey, hr, hk]
      have hl1 : l1.filter (matchesKey k) = [] :=
        filter_matches_eq_nil (hk ▸ honly1)
      have hl2 : l2.filter (matchesKey k) = [] :=
        filter_matches_eq_nil (hk ▸ honly2)
      rw [List.filter_append, List.filter_cons, hit, hl1, hl2,
        List.filter_append, hl1, hl2]
      simp [hr]
      rfl
    · have hit : matchesKey k it = false := by simp [matchesKey, hk]
      rw [List.filter_append, List.filter_cons, hit, List.filter_append]
      simp
  · rw [build_feature_df_spec, build_feature_df_spec]
    show List.countP _ (l1 ++ it :: l2) = List.countP _ (l1 ++ l2) + 1
    rw [List.countP_append, List.countP_cons, List.countP_append]
    have hp : (it.rssi.isSome
        && decide (normalize_bssid it.bssid ∈ insertKeys schema)) = true := by
      simp [hr, insertKeys_mem, hmem]
    rw [hp]
    simp
    omega

/-- Witness for C10's amended theorem: a lone `-110` observation on schema
`["a:"]`. -/
theorem C10_sentinel_observation_amended_witness :
    (build_feature_df [[97, 58]] ([] ++ ⟨[97, 58], some (-110)⟩ :: [])).1
        = (build_feature_df [[97, 58]] ([] ++ [])).1 ∧
    (build_feature_df [[97, 58]] ([] ++ ⟨[97, 58], some (-110)⟩ :: [])).2
        = (build_feature_df [[97, 58]] ([] ++ [])).2 + 1 :=
  C10_sentinel_observation_amended [[97, 58]] [] []
    ⟨[97, 58], some (-110)⟩ rfl (by decide) (by decide)

-- ======================================================================
-- The `/predict` handler (app.py lines 156-233 / prediction_api.py 89-113)
-- ======================================================================

/-- A pydantic `ScanItem` (app.py lines 96-98): `rssi` is typed `float`,
so it always parses. -/
structure PScanItem where
  bssid : List Nat
  rssi : Rat
deriving DecidableEq

/-- The dict built at app.py line 169:
`{"bssid": s.bssid, "rssi": s.rssi}`. -/
def toScanItem (s : PScanItem) : ScanItem :=
  ⟨s.bssid, some s.rssi⟩

/-- A `ScanRequest` (app.py lines 100-102): both fields optional. -/
structure ScanRequest where
  scans : Option (List PScanItem)
  access_points : Option (List PScanItem)
deriving DecidableEq

/-- Python truthiness of an optional list: `if request.scans:` is true
exactly when the field is present and the list non-empty. -/
def truthyList : Option (List PScanItem) → Bool
  | some (_ :: _) => true
  | _ => false

/-- Key selection of `predict_location` (app.py lines 159-166):
`scans` if truthy, else `access_points` if truthy, else nothing. -/
def pickRawList (req : ScanRequest) : Option (List PScanItem) :=
  if truthyList req.scans then req.scans
  else if truthyList req.access_points then req.access_points
  else none

/-- The `/predict` handler (app.py lines 156-186), up to the classifier
call: reject with HTTP 400 when no scan list was provided, build the
feature row, re-check the width defensively (HTTP 500 on mismatch), then
hand the vector to the classifier. The classifier (`rf_model.predict`) is
external, so it is a parameter; the success value records the classifier
output, `matched_count` and the number of submitted observations. -/
def predict_location (classify : List Rat → Nat)
    (feature_list : List (List Nat)) (req : ScanRequest) :
    Except Nat (Nat × Nat × Nat) :=
  match pickRawList req with
  | none => Except.error 400
  | some raw_list =>
    let scan_items := raw_list.map toScanItem
    let Xmc := build_feature_df feature_list scan_items
    if Xmc.1.length ≠ feature_list.length then Except.error 500
    else Except.ok (classify Xmc.1, Xmc.2, scan_items.length)

/-- C7: a request in which neither `scans` nor `access_points` is present
and non-empty is answered with HTTP 400 — for every classifier, i.e. the
classifier is never consulted — and a request with at least one truthy key
never takes the 400 rejection branch. -/
theorem C7_reject_without_scans (fl : List (List Nat)) (req : ScanRequest) :
    ((truthyList req.scans = false ∧ truthyList req.access_points = false) →
      ∀ classify, predict_location classify fl req = Except.error 400) ∧
    ((truthyList req.scans = true ∨ truthyList req.access_points = true) →
      ∀ classify, predict_location classify fl req ≠ Except.error 400) := by
  constructor
  · rintro ⟨h1, h2⟩ classify
    simp [predict_location, pickRawList, h1, h2]
  · intro h classify
    have hpick : ∃ l, pickRawList req = some l := by
      unfold pickRawList
      by_cases hs : truthyList req.scans = true
      · rw [if_pos hs]
        cases hsc : req.scans with
        | none => rw [hsc] at hs; simp [truthyList] at hs
        | some l =>
          cases l with
          | nil => rw [hsc] at hs; simp [truthyList] at hs
          | cons a t => exact ⟨a :: t, rfl⟩
      · have ha : truthyList req.access_points = true := by
          rcases h with h | h
          · exact absurd h hs
          · exact h
        rw [if_neg hs, if_pos ha]
        cases hac : req.access_points with
        | none => rw [hac] at ha; simp [truthyList] at ha
        | some l =>
          cases l with
          | nil => rw [hac] at ha; simp [truthyList] at ha
          | cons a t => exact ⟨a :: t, rfl⟩
    obtain ⟨l, hl⟩ := hpick
    simp only [predict_location, hl]
    split
    · intro hcontra
      simp at hcontra
    · intro hcontra
      simp at hcontra

/-- Witness for C7 at the empty request and at a one-scan request. -/
theorem C7_reject_without_scans_witness :
    predict_location (fun _ => 0) [[97, 58]] ⟨none, none⟩
        = Except.error 400 ∧
    predict_location (fun _ => 0) [[97, 58]]
        ⟨some [⟨[97, 58], -40⟩], none⟩ ≠ Except.error 400 :=
  ⟨(C7_reject_without_scans [[97, 58]] ⟨none, none⟩).1
      ⟨rfl, rfl⟩ (fun _ => 0),
   (C7_reject_without_scans [[97, 58]] ⟨some [⟨[97, 58], -40⟩], none⟩).2
      (Or.inl rfl) (fun _ => 0)⟩

/-- C9: when `scans` is present and non-empty the handler's result does not
depend on `access_points` at all (so a non-empty `access_points` is
ignored), and a request whose `scans` is the empty list behaves exactly
like a request without the `scans` key, falling back to
`access_points`. -/
theorem C9_scans_priority (classify : List Rat → Nat)
    (fl : List (List Nat)) (s : List PScanItem)
    (ap ap2 : Option (List PScanItem)) (hs : s ≠ []) :
    (predict_location classify fl ⟨some s, ap⟩
       = predict_location classify fl ⟨some s, ap2⟩) ∧
    (∀ ap3, predict_location classify fl ⟨some [], ap3⟩
       = predict_location classify fl ⟨none, ap3⟩) := by
  constructor
  · cases s with
    | nil => exact absurd rfl hs
    | cons a t =>
      have ht : truthyList (some (a :: t)) = true := rfl
      simp [predict_location, pickRawList, ht]
  · intro ap3
    have h1 : truthyList (some []) = false := rfl
    have h2 : truthyList none = false := rfl
    simp [predict_location, pickRawList, h1, h2]

/-- Witness for C9 at concrete requests. -/
theorem C9_scans_priority_witness :
    (predict_location (fun _ => 0) [[97, 58]]
        ⟨some [⟨[97, 58], -40⟩], some [⟨[98, 58], -50⟩]⟩
       = predict_location (fun _ => 0) [[97, 58]]
        ⟨some [⟨[97, 58], -40⟩], none⟩) ∧
    (predict_location (fun _ => 0) [[97, 58]]
        ⟨some [], some [⟨[98, 58], -50⟩]⟩
       = predict_location (fun _ => 0) [[97, 58]]
        ⟨none, some [⟨[98, 58], -50⟩]⟩) :=
  ⟨(C9_scans_priority (fun _ => 0) [[97, 58]] [⟨[97, 58], -40⟩]
      (some [⟨[98, 58], -50⟩]) none (by decide)).1,
   (C9_scans_priority (fun _ => 0) [[97, 58]] [⟨[97, 58], -40⟩]
      (some [⟨[98, 58], -50⟩]) none (by decide)).2
      (some [⟨[98, 58], -50⟩])⟩

end IPS
